import Mathlib

/-!
Verification of the scanned-image-cleaner artifact-removal pipeline.

The definitions below are a shallow embedding of the image-processing module
(`rgbToHsv`, `calculateLocalMeanSaturation`, `isNearBlackPixelOptimized`,
`erodeMask`, `dilateMask`, `morphologicalOpenMask`, and the `processImage`
orchestrator).  Rasters are width × height RGBA buffers; masks are boolean
functions on pixel coordinates, with only in-bounds entries meaningful
(mirroring the flat `boolean[]` arrays of length width*height, indexed
`y*width+x`).  Channel values are naturals, HSV samples are rationals.
-/

namespace ImgClean

/-- One RGBA pixel sample, 8-bit channels (alpha 0 marks transparency). -/
structure Pixel where
  r : Nat
  g : Nat
  b : Nat
  a : Nat
deriving DecidableEq, Repr

/-- A raster: width × height RGBA buffer.  `px x y` is the pixel at column
`x`, row `y`; only coordinates with `x < width`, `y < height` are meaningful. -/
structure Raster where
  width : Nat
  height : Nat
  px : Nat → Nat → Pixel

/-- The eight numeric processing knobs (`ProcessingParams` in the source).
Thresholds are rationals (they are compared against rational HSV samples),
kernel/structuring sizes are naturals. -/
structure ProcessingParams where
  brightnessThreshold : ℚ
  saturationThreshold : ℚ
  meanSaturationThreshold : ℚ
  blackPixelBrightnessThreshold : ℚ
  blackPixelSaturationThreshold : ℚ
  structuringElementSize : Nat
  blurKernelSize : Nat
  morphOpeningKernelSize : Nat

/-- The default parameter record (`defaultParams` in the source). -/
def defaultParams : ProcessingParams where
  brightnessThreshold := 78
  saturationThreshold := 16
  meanSaturationThreshold := 16
  blackPixelBrightnessThreshold := 25
  blackPixelSaturationThreshold := 31
  structuringElementSize := 25
  blurKernelSize := 12
  morphOpeningKernelSize := 3

/-- RGB (0–255 each) to HSV, hue in [0,360), saturation and value in [0,100],
translated from the source's `rgbToHsv`. -/
def rgbToHsv (r g b : Nat) : ℚ × ℚ × ℚ :=
  let r' : ℚ := (r : ℚ) / 255
  let g' : ℚ := (g : ℚ) / 255
  let b' : ℚ := (b : ℚ) / 255
  let mx := max r' (max g' b')
  let mn := min r' (min g' b')
  let d := mx - mn
  let s : ℚ := if mx = 0 then 0 else d / mx
  let v : ℚ := mx
  let h : ℚ :=
    if mx = mn then 0
    else
      (if mx = r' then (g' - b') / d + (if g' < b' then 6 else 0)
       else if mx = g' then (b' - r') / d + 2
       else (r' - g') / d + 4) / 6
  (h * 360, s * 100, v * 100)

/-- Saturation channel of a pixel's precomputed HSV sample (`hsv[1]`). -/
def satOf (p : Pixel) : ℚ := (rgbToHsv p.r p.g p.b).2.1

/-- Value/brightness channel of a pixel's precomputed HSV sample (`hsv[2]`). -/
def valOf (p : Pixel) : ℚ := (rgbToHsv p.r p.g p.b).2.2

/-- The clipped scan range `[c - hk, min bound (c + hk + 1))` used by every
windowed loop in the source (`for (let k = Math.max(0, c - hk); k < Math.min(bound, c + hk + 1); k++)`);
natural subtraction supplies the `max 0` clamp. -/
def clippedRange (c hk bound : Nat) : List Nat :=
  List.range' (c - hk) (min bound (c + hk + 1) - (c - hk))

/-- Source `calculateLocalMeanSaturation`: sum of the saturation of the
non-transparent pixels of the clipped window, divided by the number of cells
of the clipped window (transparent cells contribute zero to the numerator but
are counted); 0 when the clipped window is empty. -/
def calculateLocalMeanSaturation (img : Raster) (x y kernelSize : Nat) : ℚ :=
  let halfKernel := kernelSize / 2
  let rows := clippedRange y halfKernel img.height
  let cols := clippedRange x halfKernel img.width
  let totalSaturation : ℚ :=
    (rows.map fun ky =>
      ((cols.map fun kx =>
        if 0 < (img.px kx ky).a then satOf (img.px kx ky) else 0).sum)).sum
  let count := rows.length * cols.length
  if 0 < count then totalSaturation / (count : ℚ) else 0

/-- Source `isNearBlackPixelOptimized`: scans the clipped bounding box of radius
`⌊structureSize/2⌋` around `(x,y)` and reports whether some cell at squared
Euclidean distance ≤ `⌊structureSize/2⌋²` has a true mask entry (the source's
early `return true` is the `List.any` here). -/
def isNearBlackPixelOptimized (blackPixelsMask : Nat → Nat → Bool)
    (width height x y structureSize : Nat) : Bool :=
  let halfSize := structureSize / 2
  let radiusSquared : Int := (halfSize : Int) * (halfSize : Int)
  (clippedRange y halfSize height).any fun ky =>
    (clippedRange x halfSize width).any fun kx =>
      let dx : Int := (kx : Int) - (x : Int)
      let dy : Int := (ky : Int) - (y : Int)
      decide (dx * dx + dy * dy ≤ radiusSquared) && blackPixelsMask kx ky

/-- Source `erodeMask`: a cell is kept iff every in-bounds cell of the clipped
kernel window is true. -/
def erodeMask (mask : Nat → Nat → Bool) (width height kernelSize : Nat) :
    Nat → Nat → Bool := fun x y =>
  (clippedRange y (kernelSize / 2) height).all fun ky =>
    (clippedRange x (kernelSize / 2) width).all fun kx => mask kx ky

/-- Source `dilateMask`: a cell is set iff some in-bounds cell of the clipped
kernel window is true. -/
def dilateMask (mask : Nat → Nat → Bool) (width height kernelSize : Nat) :
    Nat → Nat → Bool := fun x y =>
  (clippedRange y (kernelSize / 2) height).any fun ky =>
    (clippedRange x (kernelSize / 2) width).any fun kx => mask kx ky

/-- Source `morphologicalOpenMask`: erosion followed by dilation. -/
def morphologicalOpenMask (mask : Nat → Nat → Bool) (width height kernelSize : Nat) :
    Nat → Nat → Bool :=
  dilateMask (erodeMask mask width height kernelSize) width height kernelSize

/-- The black-pixel mask built by the first pass of `processImage`: false for
transparent pixels, else brightness and saturation both under the black-pixel
thresholds.  Out-of-bounds entries are false (the source array is
width*height entries initialised to false). -/
def blackPixelsMask (img : Raster) (params : ProcessingParams) :
    Nat → Nat → Bool := fun x y =>
  if x < img.width ∧ y < img.height then
    if (img.px x y).a = 0 then false
    else
      decide (valOf (img.px x y) < params.blackPixelBrightnessThreshold ∧
        satOf (img.px x y) < params.blackPixelSaturationThreshold)
  else false

/-- The initial candidate mask built by pass 1 of `processImage`: skip
transparent pixels; candidates are bright (`v > brightnessThreshold`) and
low-saturation (`s < saturationThreshold`); a candidate is marked when its
local mean saturation is below `meanSaturationThreshold`. -/
def initialMask (img : Raster) (params : ProcessingParams) :
    Nat → Nat → Bool := fun x y =>
  if x < img.width ∧ y < img.height then
    if (img.px x y).a = 0 then false
    else
      if params.brightnessThreshold < valOf (img.px x y) ∧
          satOf (img.px x y) < params.saturationThreshold then
        decide (calculateLocalMeanSaturation img x y params.blurKernelSize <
          params.meanSaturationThreshold)
      else false
  else false

/-- The final mask built by pass 2 of `processImage`: initial-mask pixels
that are not near a black pixel. -/
def finalMask (img : Raster) (params : ProcessingParams) :
    Nat → Nat → Bool := fun x y =>
  initialMask img params x y &&
    !(isNearBlackPixelOptimized (blackPixelsMask img params)
        img.width img.height x y params.structuringElementSize)

/-- The opened mask: morphological opening of the final mask with
`morphOpeningKernelSize`. -/
def openedMask (img : Raster) (params : ProcessingParams) :
    Nat → Nat → Bool :=
  morphologicalOpenMask (finalMask img params) img.width img.height
    params.morphOpeningKernelSize

/-- The caller-supplied manual whitelist mask as a total function:
`none` (no mask supplied) behaves as the all-false mask. -/
def wlFun (wl : Option (Nat → Nat → Bool)) : Nat → Nat → Bool :=
  fun x y => match wl with
  | none => false
  | some m => m x y

/-- Modelled from the spec: the repository's whitelist-merge step is absent
from the source snapshot (the caller passes `manualWhitelistMask` and renders
`manuallyWhitelistedPixels`, and imports `createCircularWhitelistMask`, but
the processing module shown contains none of it).  Per §4.7, every pixel
marked true in the manual whitelist is excluded from the removal mask as an
override on top of the opened mask.  With no whitelist supplied this is
exactly the source's opened mask. -/
def mergedMask (img : Raster) (params : ProcessingParams)
    (wl : Option (Nat → Nat → Bool)) : Nat → Nat → Bool := fun x y =>
  openedMask img params x y && !(wlFun wl x y)

/-- The cleaned output raster: pixels of the merged removal mask become fully
transparent `(0,0,0,0)`; all other pixels are copied from the source. -/
def processedImage (img : Raster) (params : ProcessingParams)
    (wl : Option (Nat → Nat → Bool)) : Raster where
  width := img.width
  height := img.height
  px := fun x y =>
    if x < img.width ∧ y < img.height then
      if mergedMask img params wl x y then ⟨0, 0, 0, 0⟩ else img.px x y
    else img.px x y

/-- The visualization raster: the source copy overwritten (RGB only, alpha
kept) in program order — red on black-mask pixels, then blue on
proximity-whitelisted initial-mask pixels, then green on removal (merged)
pixels; the later write wins, which the nested conditional encodes. -/
def visualizationImage (img : Raster) (params : ProcessingParams)
    (wl : Option (Nat → Nat → Bool)) : Raster where
  width := img.width
  height := img.height
  px := fun x y =>
    if x < img.width ∧ y < img.height then
      if mergedMask img params wl x y then ⟨0, 255, 0, (img.px x y).a⟩
      else if initialMask img params x y &&
          isNearBlackPixelOptimized (blackPixelsMask img params)
            img.width img.height x y params.structuringElementSize then
        ⟨0, 0, 255, (img.px x y).a⟩
      else if blackPixelsMask img params x y then ⟨255, 0, 0, (img.px x y).a⟩
      else img.px x y
    else img.px x y

/-- Number of in-bounds cells where the boolean pixel predicate holds. -/
def countP (width height : Nat) (p : Nat → Nat → Bool) : Nat :=
  ∑ y ∈ Finset.range height, ∑ x ∈ Finset.range width, if p x y then 1 else 0

/-- The statistics record accumulated by `processImage`'s passes.
`manuallyWhitelistedPixels` is modelled from the spec (§4.7's distinct
"manually whitelisted" statistic, displayed by the caller but absent from the
snapshot's stats record). -/
structure ProcessingStats where
  brightPixels : Nat
  lowSaturationPixels : Nat
  candidateArtifacts : Nat
  lowSaturationAreas : Nat
  nearBlackPixels : Nat
  replacedPixels : Nat
  blackPixels : Nat
  manuallyWhitelistedPixels : Nat
  thresholds : ProcessingParams

/-- The statistics produced by one processing run, each counter written as
the per-pixel condition its loop increments on. -/
def processStats (img : Raster) (params : ProcessingParams)
    (wl : Option (Nat → Nat → Bool)) : ProcessingStats where
  brightPixels := countP img.width img.height fun x y =>
    decide ((img.px x y).a ≠ 0 ∧
      params.brightnessThreshold < valOf (img.px x y))
  lowSaturationPixels := countP img.width img.height fun x y =>
    decide ((img.px x y).a ≠ 0 ∧
      satOf (img.px x y) < params.saturationThreshold)
  candidateArtifacts := countP img.width img.height fun x y =>
    decide ((img.px x y).a ≠ 0 ∧
      params.brightnessThreshold < valOf (img.px x y) ∧
      satOf (img.px x y) < params.saturationThreshold)
  lowSaturationAreas := countP img.width img.height fun x y =>
    decide ((img.px x y).a ≠ 0 ∧
      params.brightnessThreshold < valOf (img.px x y) ∧
      satOf (img.px x y) < params.saturationThreshold ∧
      calculateLocalMeanSaturation img x y params.blurKernelSize <
        params.meanSaturationThreshold)
  nearBlackPixels := countP img.width img.height fun x y =>
    initialMask img params x y &&
      isNearBlackPixelOptimized (blackPixelsMask img params)
        img.width img.height x y params.structuringElementSize
  replacedPixels := countP img.width img.height fun x y =>
    initialMask img params x y &&
      !(isNearBlackPixelOptimized (blackPixelsMask img params)
          img.width img.height x y params.structuringElementSize)
  blackPixels := countP img.width img.height fun x y =>
    decide ((img.px x y).a ≠ 0 ∧
      valOf (img.px x y) < params.blackPixelBrightnessThreshold ∧
      satOf (img.px x y) < params.blackPixelSaturationThreshold)
  manuallyWhitelistedPixels := countP img.width img.height (wlFun wl)
  thresholds := params

/-- Cell `(kx,ky)` is an in-bounds cell of the clipped kernel window of half-size
`hk` centred at `(x,y)`. -/
def Win (hk w h x y kx ky : Nat) : Prop :=
  x - hk ≤ kx ∧ kx < w ∧ kx < x + hk + 1 ∧
  y - hk ≤ ky ∧ ky < h ∧ ky < y + hk + 1

/-- The local mean saturation as claim C2 words it: the same numerator (sum
of saturation over non-transparent in-bounds window pixels) divided by the
full, unclipped window pixel count, so that out-of-bounds samples still count
in the denominator (zero-padded averaging).  Stated from the spec's words,
for comparison against the source's `calculateLocalMeanSaturation`. -/
def claimLocalMeanSaturation (img : Raster) (x y kernelSize : Nat) : ℚ :=
  let hk := kernelSize / 2
  let fullCount := (2 * hk + 1) * (2 * hk + 1)
  let total : ℚ :=
    ∑ ky ∈ Finset.Ico (y - hk) (min img.height (y + hk + 1)),
      ∑ kx ∈ Finset.Ico (x - hk) (min img.width (x + hk + 1)),
        if 0 < (img.px kx ky).a then satOf (img.px kx ky) else 0
  if 0 < fullCount then total / (fullCount : ℚ) else 0

/-- A 1×1 fully opaque pure-red raster (saturation 100). -/
def oneRedRaster : Raster := ⟨1, 1, fun _ _ => ⟨255, 0, 0, 255⟩⟩

/-- A 1×1 fully transparent raster. -/
def transparentRaster : Raster := ⟨1, 1, fun _ _ => ⟨10, 10, 10, 0⟩⟩

/-- A 1×1 opaque mid-gray raster (value ≈ 50.2, saturation 0). -/
def grayRaster : Raster := ⟨1, 1, fun _ _ => ⟨128, 128, 128, 255⟩⟩

/-- A 1×1 opaque white raster. -/
def whiteRaster : Raster := ⟨1, 1, fun _ _ => ⟨255, 255, 255, 255⟩⟩

/-- A 1×1 opaque black raster. -/
def blackRaster : Raster := ⟨1, 1, fun _ _ => ⟨0, 0, 0, 255⟩⟩

/-- The 0×0 raster. -/
def emptyRaster : Raster := ⟨0, 0, fun _ _ => ⟨0, 0, 0, 255⟩⟩

/-- Permissive thresholds making a mid-gray pixel simultaneously a black
pixel and an artifact candidate (used to exhibit the blue-overrides-red
colouring). -/
def permissiveParams : ProcessingParams where
  brightnessThreshold := 0
  saturationThreshold := 100
  meanSaturationThreshold := 100
  blackPixelBrightnessThreshold := 100
  blackPixelSaturationThreshold := 100
  structuringElementSize := 1
  blurKernelSize := 3
  morphOpeningKernelSize := 3

/-- The all-true 1×1 manual whitelist mask. -/
def fullWhitelist : Nat → Nat → Bool := fun _ _ => true

/-- A sample 2×2 mask with a single true cell, used to instantiate the
morphology theorems. -/
def sampleMask : Nat → Nat → Bool := fun x y => decide (x = 0 ∧ y = 0)

/-! ### Window helpers -/

theorem bool_eq_of_iff {a b : Bool} (h : a = true ↔ b = true) : a = b := by
  cases a <;> cases b <;> simp_all

theorem mem_clippedRange {c' c hk bound : Nat} :
    c' ∈ clippedRange c hk bound ↔ c - hk ≤ c' ∧ c' < bound ∧ c' < c + hk + 1 := by
  unfold clippedRange
  rw [List.mem_range'_1]
  omega

theorem clippedRange_length (c hk bound : Nat) :
    (clippedRange c hk bound).length = min bound (c + hk + 1) - (c - hk) := by
  unfold clippedRange
  exact List.length_range' ..

theorem win_symm {hk w h x y kx ky : Nat} (hx : x < w) (hy : y < h)
    (hw : Win hk w h x y kx ky) : Win hk w h kx ky x y := by
  unfold Win at *
  omega

/-! ### Morphology: pointwise characterisations, anti-extensivity, idempotence -/

theorem erodeMask_eq_true_iff {mask : Nat → Nat → Bool} {w h K x y : Nat} :
    erodeMask mask w h K x y = true ↔
      ∀ kx ky, Win (K / 2) w h x y kx ky → mask kx ky = true := by
  simp only [erodeMask, List.all_eq_true, mem_clippedRange, Win]
  constructor
  · intro H kx ky hw
    exact H ky ⟨hw.2.2.2.1, hw.2.2.2.2.1, hw.2.2.2.2.2⟩ kx ⟨hw.1, hw.2.1, hw.2.2.1⟩
  · intro H ky hky kx hkx
    exact H kx ky ⟨hkx.1, hkx.2.1, hkx.2.2, hky.1, hky.2.1, hky.2.2⟩

theorem dilateMask_eq_true_iff {mask : Nat → Nat → Bool} {w h K x y : Nat} :
    dilateMask mask w h K x y = true ↔
      ∃ kx ky, Win (K / 2) w h x y kx ky ∧ mask kx ky = true := by
  simp only [dilateMask, List.any_eq_true, mem_clippedRange, Win]
  constructor
  · rintro ⟨ky, ⟨k1, k2, k3⟩, kx, ⟨l1, l2, l3⟩, hm⟩
    exact ⟨kx, ky, ⟨l1, l2, l3, k1, k2, k3⟩, hm⟩
  · rintro ⟨kx, ky, ⟨l1, l2, l3, k1, k2, k3⟩, hm⟩
    exact ⟨ky, ⟨k1, k2, k3⟩, kx, ⟨l1, l2, l3⟩, hm⟩

/-- Opening is anti-extensive on in-bounds cells: every cell kept by
`morphologicalOpenMask` was already true in the input mask. -/
theorem morphologicalOpen_subset {mask : Nat → Nat → Bool} {w h K x y : Nat}
    (hx : x < w) (hy : y < h)
    (hop : morphologicalOpenMask mask w h K x y = true) : mask x y = true := by
  rw [morphologicalOpenMask, dilateMask_eq_true_iff] at hop
  obtain ⟨kx, ky, hw, her⟩ := hop
  rw [erodeMask_eq_true_iff] at her
  exact her x y (win_symm hx hy hw)

/-- Eroding an opened mask gives the erosion of the original mask
(the adjunction law `ε ∘ δ ∘ ε = ε`), pointwise at in-bounds cells. -/
theorem erode_open_eq {mask : Nat → Nat → Bool} {w h K qx qy : Nat}
    (hqx : qx < w) (hqy : qy < h) :
    erodeMask (morphologicalOpenMask mask w h K) w h K qx qy =
      erodeMask mask w h K qx qy := by
  apply bool_eq_of_iff
  constructor
  · intro H
    rw [erodeMask_eq_true_iff] at H ⊢
    intro kx ky hw
    exact morphologicalOpen_subset hw.2.1 hw.2.2.2.2.1 (H kx ky hw)
  · intro H
    rw [erodeMask_eq_true_iff]
    intro kx ky hw
    rw [morphologicalOpenMask, dilateMask_eq_true_iff]
    exact ⟨qx, qy, win_symm hqx hqy hw, H⟩

/-- Morphological opening is idempotent (at every cell, for every kernel
size, thanks to the symmetric clipped windows). -/
theorem morphologicalOpen_idem (mask : Nat → Nat → Bool) (w h K x y : Nat) :
    morphologicalOpenMask (morphologicalOpenMask mask w h K) w h K x y =
      morphologicalOpenMask mask w h K x y := by
  show dilateMask (erodeMask (morphologicalOpenMask mask w h K) w h K) w h K x y =
    dilateMask (erodeMask mask w h K) w h K x y
  apply bool_eq_of_iff
  rw [dilateMask_eq_true_iff, dilateMask_eq_true_iff]
  constructor
  · rintro ⟨kx, ky, hw, hE⟩
    refine ⟨kx, ky, hw, ?_⟩
    rw [← erode_open_eq hw.2.1 hw.2.2.2.2.1]
    exact hE
  · rintro ⟨kx, ky, hw, hE⟩
    refine ⟨kx, ky, hw, ?_⟩
    rw [erode_open_eq hw.2.1 hw.2.2.2.2.1]
    exact hE

/-! ### Proximity-test helpers -/

theorem isNearBlackPixel_eq_true_iff {mask : Nat → Nat → Bool}
    {w h x y S : Nat} :
    isNearBlackPixelOptimized mask w h x y S = true ↔
      ∃ kx ky, Win (S / 2) w h x y kx ky ∧
        ((kx : Int) - (x : Int)) * ((kx : Int) - (x : Int)) +
          ((ky : Int) - (y : Int)) * ((ky : Int) - (y : Int)) ≤
            ((S / 2 : Nat) : Int) * ((S / 2 : Nat) : Int) ∧
        mask kx ky = true := by
  simp only [isNearBlackPixelOptimized, List.any_eq_true, mem_clippedRange,
    Bool.and_eq_true, decide_eq_true_eq, Win]
  constructor
  · rintro ⟨ky, ⟨k1, k2, k3⟩, kx, ⟨l1, l2, l3⟩, hd, hm⟩
    exact ⟨kx, ky, ⟨l1, l2, l3, k1, k2, k3⟩, hd, hm⟩
  · rintro ⟨kx, ky, ⟨l1, l2, l3, k1, k2, k3⟩, hd, hm⟩
    exact ⟨ky, ⟨k1, k2, k3⟩, kx, ⟨l1, l2, l3⟩, hd, hm⟩

/-- The proximity test's neighbourhood always contains the centre cell
(squared distance 0), so a true centre makes the test succeed. -/
theorem isNear_center {mask : Nat → Nat → Bool} {w h x y S : Nat}
    (hx : x < w) (hy : y < h) (hm : mask x y = true) :
    isNearBlackPixelOptimized mask w h x y S = true := by
  rw [isNearBlackPixel_eq_true_iff]
  refine ⟨x, y, ?_, ?_, hm⟩
  · unfold Win
    omega
  · simp only [sub_self, mul_zero, zero_mul, add_zero]
    positivity

/-! ### Mask characterisations -/

theorem blackPixelsMask_eq_true_iff {img : Raster} {P : ProcessingParams}
    {x y : Nat} :
    blackPixelsMask img P x y = true ↔
      x < img.width ∧ y < img.height ∧ (img.px x y).a ≠ 0 ∧
      valOf (img.px x y) < P.blackPixelBrightnessThreshold ∧
      satOf (img.px x y) < P.blackPixelSaturationThreshold := by
  unfold blackPixelsMask
  split_ifs with hb ha <;> simp_all

theorem initialMask_eq_true_iff {img : Raster} {P : ProcessingParams}
    {x y : Nat} :
    initialMask img P x y = true ↔
      x < img.width ∧ y < img.height ∧ (img.px x y).a ≠ 0 ∧
      P.brightnessThreshold < valOf (img.px x y) ∧
      satOf (img.px x y) < P.saturationThreshold ∧
      calculateLocalMeanSaturation img x y P.blurKernelSize <
        P.meanSaturationThreshold := by
  unfold initialMask
  split_ifs with hb ha hc <;> simp_all

theorem finalMask_eq_true_iff {img : Raster} {P : ProcessingParams}
    {x y : Nat} :
    finalMask img P x y = true ↔
      initialMask img P x y = true ∧
      isNearBlackPixelOptimized (blackPixelsMask img P) img.width img.height
        x y P.structuringElementSize = false := by
  unfold finalMask
  cases hi : initialMask img P x y <;>
    cases hn : isNearBlackPixelOptimized (blackPixelsMask img P) img.width
      img.height x y P.structuringElementSize <;> simp_all

/-- A black-mask pixel is never in the final mask: it is its own proximity
witness, so any candidate at that cell is whitelisted. -/
theorem black_imp_final_false {img : Raster} {P : ProcessingParams}
    {x y : Nat} (hb : blackPixelsMask img P x y = true) :
    finalMask img P x y = false := by
  have hbnds := blackPixelsMask_eq_true_iff.mp hb
  cases hf : finalMask img P x y with
  | false => rfl
  | true =>
    have := finalMask_eq_true_iff.mp hf
    rw [isNear_center hbnds.1 hbnds.2.1 hb] at this
    exact absurd this.2 (by simp)

/-- The opened mask is a subset of the final mask on in-bounds cells. -/
theorem opened_imp_final {img : Raster} {P : ProcessingParams} {x y : Nat}
    (hx : x < img.width) (hy : y < img.height)
    (ho : openedMask img P x y = true) : finalMask img P x y = true :=
  morphologicalOpen_subset hx hy ho

theorem merged_imp_opened {img : Raster} {P : ProcessingParams}
    {wl : Option (Nat → Nat → Bool)} {x y : Nat}
    (hm : mergedMask img P wl x y = true) : openedMask img P x y = true :=
  (Bool.and_eq_true .. |>.mp hm).1

/-! ### Counting helpers -/

theorem countP_congr {w h : Nat} {p q : Nat → Nat → Bool}
    (H : ∀ x, x < w → ∀ y, y < h → p x y = q x y) :
    countP w h p = countP w h q := by
  unfold countP
  refine Finset.sum_congr rfl fun y hy => Finset.sum_congr rfl fun x hx => ?_
  rw [H x (Finset.mem_range.mp hx) y (Finset.mem_range.mp hy)]

theorem countP_eq_zero {w h : Nat} {p : Nat → Nat → Bool}
    (H : ∀ x, x < w → ∀ y, y < h → p x y = false) : countP w h p = 0 := by
  rw [@countP_congr w h p (fun _ _ => false) H]
  simp [countP]

theorem countP_add_of_disjoint {w h : Nat} {p q : Nat → Nat → Bool}
    (H : ∀ x, x < w → ∀ y, y < h → ¬(p x y = true ∧ q x y = true)) :
    countP w h (fun x y => p x y || q x y) = countP w h p + countP w h q := by
  unfold countP
  rw [← Finset.sum_add_distrib]
  refine Finset.sum_congr rfl fun y hy => ?_
  rw [← Finset.sum_add_distrib]
  refine Finset.sum_congr rfl fun x hx => ?_
  have := H x (Finset.mem_range.mp hx) y (Finset.mem_range.mp hy)
  cases hp : p x y <;> cases hq : q x y <;> simp_all

/-! ### List/Finset sum bridge for the local-mean filter -/

theorem sum_map_range' (f : Nat → ℚ) (s n : Nat) :
    ((List.range' s n).map f).sum = ∑ i ∈ Finset.Ico s (s + n), f i := by
  induction n generalizing s with
  | zero => simp
  | succ n ih =>
    rw [List.range'_succ, List.map_cons, List.sum_cons, ih (s + 1),
      show s + 1 + n = s + (n + 1) from by omega,
      Finset.sum_eq_sum_Ico_succ_bot (show s < s + (n + 1) from by omega) f]

theorem clippedRange_sum (f : Nat → ℚ) (c hk bound : Nat) :
    ((clippedRange c hk bound).map f).sum =
      ∑ i ∈ Finset.Ico (c - hk) (min bound (c + hk + 1)), f i := by
  unfold clippedRange
  rw [sum_map_range' f]
  by_cases hle : c - hk ≤ min bound (c + hk + 1)
  · rw [Nat.add_sub_cancel' hle]
  · rw [show (c - hk) + (min bound (c + hk + 1) - (c - hk)) = c - hk from by omega,
      Finset.Ico_self, Finset.Ico_eq_empty (by omega)]

/-! ### Claim theorems -/

/-- C2 (counterexample): at the corner of a 1×1 opaque red raster with kernel
size 3 the source's `calculateLocalMeanSaturation` divides by the clipped
window count (1 cell, giving 100) and not by the full 3×3 window count the
claim requires (which would give 100/9). -/
theorem localMeanSaturation_zero_padding_cex :
    calculateLocalMeanSaturation oneRedRaster 0 0 3 ≠
      claimLocalMeanSaturation oneRedRaster 0 0 3 := by
  norm_num [calculateLocalMeanSaturation, claimLocalMeanSaturation,
    clippedRange, satOf, rgbToHsv, oneRedRaster, List.range',
    Finset.sum_Ico_eq_sum_range]

/-- C2 (amended): the local mean saturation equals the sum of saturation over
non-transparent in-bounds window pixels divided by the number of in-bounds
window cells — transparent in-bounds cells count in the denominator only,
while out-of-bounds cells count in neither; 0 when the clipped window is
empty. -/
theorem localMeanSaturation_clipped_denominator (img : Raster) (x y K : Nat) :
    calculateLocalMeanSaturation img x y K =
      if 0 < (Finset.Ico (y - K / 2) (min img.height (y + K / 2 + 1))).card *
          (Finset.Ico (x - K / 2) (min img.width (x + K / 2 + 1))).card then
        (∑ ky ∈ Finset.Ico (y - K / 2) (min img.height (y + K / 2 + 1)),
          ∑ kx ∈ Finset.Ico (x - K / 2) (min img.width (x + K / 2 + 1)),
            if 0 < (img.px kx ky).a then satOf (img.px kx ky) else 0) /
          (((Finset.Ico (y - K / 2) (min img.height (y + K / 2 + 1))).card *
            (Finset.Ico (x - K / 2) (min img.width (x + K / 2 + 1))).card : Nat) : ℚ)
      else 0 := by
  unfold calculateLocalMeanSaturation
  simp only [clippedRange_sum, clippedRange_length, Nat.card_Ico]

/-- C5: morphological opening is idempotent — for every boolean mask of any
width×height and every odd kernel size K ≥ 3,
`open(open(mask,K),K) = open(mask,K)` at every in-bounds cell, where
`open = dilate ∘ erode` with windows clipped at the image edges. -/
theorem opening_idempotent (mask : Nat → Nat → Bool) (w h K : Nat)
    (_hodd : Odd K) (_hK : 3 ≤ K) (x y : Nat) (_hx : x < w) (_hy : y < h) :
    morphologicalOpenMask (morphologicalOpenMask mask w h K) w h K x y =
      morphologicalOpenMask mask w h K x y :=
  morphologicalOpen_idem mask w h K x y

/-- Witness for C5 at a concrete mask, kernel size 3, cell (0,0). -/
theorem opening_idempotent_witness :
    (Odd 3 ∧ 3 ≤ 3 ∧ (0 : Nat) < 2) ∧
    morphologicalOpenMask (morphologicalOpenMask sampleMask 2 2 3) 2 2 3 0 0 =
      morphologicalOpenMask sampleMask 2 2 3 0 0 :=
  ⟨⟨⟨1, by norm_num⟩, by norm_num, by norm_num⟩,
    opening_idempotent sampleMask 2 2 3 ⟨1, by norm_num⟩ (by norm_num) 0 0
      (by norm_num) (by norm_num)⟩

/-- C8: the proximity test returns true iff the clipped bounding box of
radius `r = ⌊S/2⌋` around `(x,y)` contains an in-bounds cell whose squared
Euclidean distance to `(x,y)` is at most `r²` and whose mask entry is true;
since this is an if-and-only-if characterisation, the scan order and early
exit cannot affect the boolean result. -/
theorem proximity_test_semantics (mask : Nat → Nat → Bool) (w h x y S : Nat) :
    isNearBlackPixelOptimized mask w h x y S = true ↔
      ∃ kx ky,
        (x - S / 2 ≤ kx ∧ kx < w ∧ kx < x + S / 2 + 1 ∧
         y - S / 2 ≤ ky ∧ ky < h ∧ ky < y + S / 2 + 1) ∧
        ((kx : Int) - (x : Int)) * ((kx : Int) - (x : Int)) +
          ((ky : Int) - (y : Int)) * ((ky : Int) - (y : Int)) ≤
            ((S / 2 : Nat) : Int) * ((S / 2 : Nat) : Int) ∧
        mask kx ky = true := by
  simpa [Win] using
    (@isNearBlackPixel_eq_true_iff mask w h x y S)

/-! ### Output-raster access helpers -/

theorem processedImage_px {img : Raster} {P : ProcessingParams}
    {wl : Option (Nat → Nat → Bool)} {x y : Nat}
    (hx : x < img.width) (hy : y < img.height) :
    (processedImage img P wl).px x y =
      if mergedMask img P wl x y then ⟨0, 0, 0, 0⟩ else img.px x y := by
  simp [processedImage, hx, hy]

theorem processedImage_px_oob {img : Raster} {P : ProcessingParams}
    {wl : Option (Nat → Nat → Bool)} {x y : Nat}
    (h : ¬(x < img.width ∧ y < img.height)) :
    (processedImage img P wl).px x y = img.px x y := by
  simp only [processedImage]
  rw [if_neg h]

theorem visualizationImage_px {img : Raster} {P : ProcessingParams}
    {wl : Option (Nat → Nat → Bool)} {x y : Nat}
    (hx : x < img.width) (hy : y < img.height) :
    (visualizationImage img P wl).px x y =
      if mergedMask img P wl x y then ⟨0, 255, 0, (img.px x y).a⟩
      else if initialMask img P x y &&
          isNearBlackPixelOptimized (blackPixelsMask img P)
            img.width img.height x y P.structuringElementSize then
        ⟨0, 0, 255, (img.px x y).a⟩
      else if blackPixelsMask img P x y then ⟨255, 0, 0, (img.px x y).a⟩
      else img.px x y := by
  simp only [visualizationImage]
  rw [if_pos ⟨hx, hy⟩]

theorem visualizationImage_px_oob {img : Raster} {P : ProcessingParams}
    {wl : Option (Nat → Nat → Bool)} {x y : Nat}
    (h : ¬(x < img.width ∧ y < img.height)) :
    (visualizationImage img P wl).px x y = img.px x y := by
  simp only [visualizationImage]
  rw [if_neg h]

theorem raster_ext {A B : Raster} (hw : A.width = B.width)
    (hh : A.height = B.height) (hpx : ∀ x y, A.px x y = B.px x y) : A = B := by
  cases A
  cases B
  simp only [Raster.mk.injEq]
  exact ⟨hw, hh, funext fun x => funext fun y => hpx x y⟩

/-- The merged removal mask is false wherever the final mask is false
(anti-extensivity of opening plus the whitelist override). -/
theorem merged_false_of_final_false {img : Raster} {P : ProcessingParams}
    {wl : Option (Nat → Nat → Bool)} {x y : Nat}
    (hx : x < img.width) (hy : y < img.height)
    (hf : finalMask img P x y = false) : mergedMask img P wl x y = false := by
  cases hm : mergedMask img P wl x y with
  | false => rfl
  | true =>
    have := opened_imp_final hx hy (merged_imp_opened hm)
    rw [hf] at this
    exact absurd this (by simp)

/-- C1: whitelist override — a pixel set true in a supplied manual whitelist
mask is excluded from the merged removal mask regardless of the
classifier/morphology outcome, the cleaned output's alpha there equals the
source alpha, and the distinct manually-whitelisted statistic counts the
whitelist's in-bounds true entries. -/
theorem whitelist_override (img : Raster) (P : ProcessingParams)
    (m : Nat → Nat → Bool) (x y : Nat)
    (hx : x < img.width) (hy : y < img.height) (hwl : m x y = true) :
    mergedMask img P (some m) x y = false ∧
    ((processedImage img P (some m)).px x y).a = (img.px x y).a ∧
    (processStats img P (some m)).manuallyWhitelistedPixels =
      countP img.width img.height m := by
  have hmerged : mergedMask img P (some m) x y = false := by
    simp [mergedMask, wlFun, hwl]
  refine ⟨hmerged, ?_, rfl⟩
  rw [processedImage_px hx hy, hmerged]
  simp

/-- Witness for C1: a 1×1 white raster with an all-true manual whitelist. -/
theorem whitelist_override_witness :
    ((0 : Nat) < 1 ∧ fullWhitelist 0 0 = true) ∧
    (mergedMask whiteRaster defaultParams (some fullWhitelist) 0 0 = false ∧
     ((processedImage whiteRaster defaultParams (some fullWhitelist)).px 0 0).a =
       (whiteRaster.px 0 0).a ∧
     (processStats whiteRaster defaultParams
         (some fullWhitelist)).manuallyWhitelistedPixels =
       countP whiteRaster.width whiteRaster.height fullWhitelist) :=
  ⟨⟨by norm_num, rfl⟩,
    whitelist_override whiteRaster defaultParams fullWhitelist 0 0
      (by decide) (by decide) rfl⟩

/-- C4: mask monotonicity — the final mask is a subset of the initial
candidate mask, the merged removal mask is a subset of the final mask, and
every pixel actually made transparent (opaque in the source, alpha 0 in the
cleaned output) passed the brightness, saturation, and local-mean-saturation
tests. -/
theorem mask_monotonicity (img : Raster) (P : ProcessingParams)
    (wl : Option (Nat → Nat → Bool)) (x y : Nat)
    (hx : x < img.width) (hy : y < img.height) :
    (finalMask img P x y = true → initialMask img P x y = true) ∧
    (mergedMask img P wl x y = true → finalMask img P x y = true) ∧
    (((processedImage img P wl).px x y).a = 0 → (img.px x y).a ≠ 0 →
      initialMask img P x y = true ∧
      P.brightnessThreshold < valOf (img.px x y) ∧
      satOf (img.px x y) < P.saturationThreshold ∧
      calculateLocalMeanSaturation img x y P.blurKernelSize <
        P.meanSaturationThreshold) := by
  have h1 : finalMask img P x y = true → initialMask img P x y = true :=
    fun hf => (finalMask_eq_true_iff.mp hf).1
  have h2 : mergedMask img P wl x y = true → finalMask img P x y = true :=
    fun hm => opened_imp_final hx hy (merged_imp_opened hm)
  refine ⟨h1, h2, fun ha hna => ?_⟩
  cases hm : mergedMask img P wl x y with
  | false =>
    rw [processedImage_px hx hy, hm] at ha
    simp at ha
    exact absurd ha hna
  | true =>
    have hinit := h1 (h2 hm)
    have hc := initialMask_eq_true_iff.mp hinit
    exact ⟨hinit, hc.2.2.2.1, hc.2.2.2.2.1, hc.2.2.2.2.2⟩

/-- Witness for C4 at a 1×1 white raster with the default parameters. -/
theorem mask_monotonicity_witness :
    ((0 : Nat) < 1) ∧
    ((finalMask whiteRaster defaultParams 0 0 = true →
        initialMask whiteRaster defaultParams 0 0 = true) ∧
     (mergedMask whiteRaster defaultParams none 0 0 = true →
        finalMask whiteRaster defaultParams 0 0 = true) ∧
     (((processedImage whiteRaster defaultParams none).px 0 0).a = 0 →
        (whiteRaster.px 0 0).a ≠ 0 →
        initialMask whiteRaster defaultParams 0 0 = true ∧
        defaultParams.brightnessThreshold < valOf (whiteRaster.px 0 0) ∧
        satOf (whiteRaster.px 0 0) < defaultParams.saturationThreshold ∧
        calculateLocalMeanSaturation whiteRaster 0 0
            defaultParams.blurKernelSize <
          defaultParams.meanSaturationThreshold)) :=
  ⟨by norm_num,
    mask_monotonicity whiteRaster defaultParams none 0 0
      (by decide) (by decide)⟩

/-- C6: transparency preservation — a source pixel with alpha 0 is never
marked black, candidate, or removed, and is returned bit-for-bit unmodified
(in particular with alpha still 0) in both the cleaned and the visualization
outputs. -/
theorem transparency_preservation (img : Raster) (P : ProcessingParams)
    (wl : Option (Nat → Nat → Bool)) (x y : Nat)
    (hx : x < img.width) (hy : y < img.height)
    (ha : (img.px x y).a = 0) :
    blackPixelsMask img P x y = false ∧
    initialMask img P x y = false ∧
    finalMask img P x y = false ∧
    mergedMask img P wl x y = false ∧
    (processedImage img P wl).px x y = img.px x y ∧
    (visualizationImage img P wl).px x y = img.px x y := by
  have hb : blackPixelsMask img P x y = false := by
    cases h : blackPixelsMask img P x y with
    | false => rfl
    | true => exact absurd ha (blackPixelsMask_eq_true_iff.mp h).2.2.1
  have hi : initialMask img P x y = false := by
    cases h : initialMask img P x y with
    | false => rfl
    | true => exact absurd ha (initialMask_eq_true_iff.mp h).2.2.1
  have hf : finalMask img P x y = false := by
    simp [finalMask, hi]
  have hm : mergedMask img P wl x y = false :=
    merged_false_of_final_false hx hy hf
  refine ⟨hb, hi, hf, hm, ?_, ?_⟩
  · rw [processedImage_px hx hy, hm]
    simp
  · rw [visualizationImage_px hx hy, hm, hi, hb]
    simp

/-- Witness for C6: a 1×1 fully transparent raster. -/
theorem transparency_preservation_witness :
    ((0 : Nat) < 1 ∧ (transparentRaster.px 0 0).a = 0) ∧
    (blackPixelsMask transparentRaster defaultParams 0 0 = false ∧
     initialMask transparentRaster defaultParams 0 0 = false ∧
     finalMask transparentRaster defaultParams 0 0 = false ∧
     mergedMask transparentRaster defaultParams none 0 0 = false ∧
     (processedImage transparentRaster defaultParams none).px 0 0 =
       transparentRaster.px 0 0 ∧
     (visualizationImage transparentRaster defaultParams none).px 0 0 =
       transparentRaster.px 0 0) :=
  ⟨⟨by norm_num, rfl⟩,
    transparency_preservation transparentRaster defaultParams none 0 0
      (by decide) (by decide) rfl⟩

/-- C10: black pixels are never erased — with any structuring-element size
(naturals, so S ≥ 0), a black-mask pixel is its own proximity witness
(squared distance 0 ≤ ⌊S/2⌋²), hence self-whitelisted out of the final mask,
and by anti-extensivity of opening it is absent from the merged mask and is
left untouched in the cleaned output. -/
theorem black_pixels_never_erased (img : Raster) (P : ProcessingParams)
    (wl : Option (Nat → Nat → Bool)) (x y : Nat)
    (hx : x < img.width) (hy : y < img.height)
    (hb : blackPixelsMask img P x y = true) :
    isNearBlackPixelOptimized (blackPixelsMask img P) img.width img.height
      x y P.structuringElementSize = true ∧
    finalMask img P x y = false ∧
    mergedMask img P wl x y = false ∧
    (processedImage img P wl).px x y = img.px x y := by
  have hnear := @isNear_center (blackPixelsMask img P) img.width
    img.height x y P.structuringElementSize hx hy hb
  have hf := black_imp_final_false hb
  have hm : mergedMask img P wl x y = false :=
    merged_false_of_final_false hx hy hf
  refine ⟨hnear, hf, hm, ?_⟩
  rw [processedImage_px hx hy, hm]
  simp

/-- Witness for C10: a 1×1 opaque black raster with default parameters. -/
theorem black_pixels_never_erased_witness :
    ((0 : Nat) < 1 ∧ blackPixelsMask blackRaster defaultParams 0 0 = true) ∧
    (isNearBlackPixelOptimized (blackPixelsMask blackRaster defaultParams)
        blackRaster.width blackRaster.height 0 0
        defaultParams.structuringElementSize = true ∧
     finalMask blackRaster defaultParams 0 0 = false ∧
     mergedMask blackRaster defaultParams none 0 0 = false ∧
     (processedImage blackRaster defaultParams none).px 0 0 =
       blackRaster.px 0 0) :=
  ⟨⟨by norm_num, by
      rw [blackPixelsMask_eq_true_iff]
      refine ⟨by decide, by decide, by decide, ?_, ?_⟩ <;>
        norm_num [blackRaster, defaultParams, valOf, satOf, rgbToHsv]⟩,
    black_pixels_never_erased blackRaster defaultParams none 0 0
      (by decide) (by decide) (by
        rw [blackPixelsMask_eq_true_iff]
        refine ⟨by decide, by decide, by decide, ?_, ?_⟩ <;>
          norm_num [blackRaster, defaultParams, valOf, satOf, rgbToHsv])⟩

/-- C3 (counterexample): on a 1×1 fully transparent raster the cleaned
output has one alpha-0 pixel while the merged removal mask is empty, so the
claimed equality of the two counts fails. -/
theorem statistic_consistency_cex :
    countP transparentRaster.width transparentRaster.height
        (fun x y =>
          decide (((processedImage transparentRaster defaultParams
            none).px x y).a = 0)) = 1 ∧
    countP transparentRaster.width transparentRaster.height
        (mergedMask transparentRaster defaultParams none) = 0 := by
  decide

/-- C3 (amended): `blackPixels` counts the black-mask true entries and
`replacedPixels` counts the final-mask true entries; the cleaned raster's
alpha-0 count equals the merged (opened-and-whitelist-merged) mask's
true-count plus the number of source pixels that were already alpha 0 (the
two sets are disjoint). -/
theorem statistic_consistency (img : Raster) (P : ProcessingParams)
    (wl : Option (Nat → Nat → Bool)) :
    (processStats img P wl).blackPixels =
      countP img.width img.height (blackPixelsMask img P) ∧
    (processStats img P wl).replacedPixels =
      countP img.width img.height (finalMask img P) ∧
    countP img.width img.height
        (fun x y => decide (((processedImage img P wl).px x y).a = 0)) =
      countP img.width img.height (mergedMask img P wl) +
        countP img.width img.height
          (fun x y => decide ((img.px x y).a = 0)) := by
  refine ⟨?_, rfl, ?_⟩
  · simp only [processStats]
    apply countP_congr
    intro x hx y hy
    apply bool_eq_of_iff
    simp only [decide_eq_true_eq, blackPixelsMask_eq_true_iff]
    tauto
  · have hpoint : ∀ x, x < img.width → ∀ y, y < img.height →
        (fun x y =>
          decide (((processedImage img P wl).px x y).a = 0)) x y =
        (fun x y =>
          mergedMask img P wl x y || decide ((img.px x y).a = 0)) x y := by
      intro x hx y hy
      simp only
      rw [processedImage_px hx hy]
      cases hm : mergedMask img P wl x y with
      | false => simp
      | true => simp
    rw [countP_congr hpoint]
    apply countP_add_of_disjoint
    intro x hx y hy hcon
    obtain ⟨h1, h2⟩ := hcon
    have hfin := opened_imp_final hx hy (merged_imp_opened h1)
    have hne := (initialMask_eq_true_iff.mp
      (finalMask_eq_true_iff.mp hfin).1).2.2.1
    rw [decide_eq_true_eq] at h2
    exact hne h2

/-- C7 (counterexample): with permissive thresholds a mid-gray pixel is both
black-mask true and an initial-mask candidate; being its own proximity
witness it is coloured blue, not red, and no green (removal) colouring
overrides it — so "red exactly when black-mask true except where overridden
by subsequent green" fails. -/
theorem color_coding_cex :
    blackPixelsMask grayRaster permissiveParams 0 0 = true ∧
    mergedMask grayRaster permissiveParams none 0 0 = false ∧
    (visualizationImage grayRaster permissiveParams none).px 0 0 =
      ⟨0, 0, 255, 255⟩ ∧
    (visualizationImage grayRaster permissiveParams none).px 0 0 ≠
      ⟨255, 0, 0, 255⟩ := by
  have hblack : blackPixelsMask grayRaster permissiveParams 0 0 = true := by
    rw [blackPixelsMask_eq_true_iff]
    refine ⟨by decide, by decide, by decide, ?_, ?_⟩ <;>
      norm_num [grayRaster, permissiveParams, valOf, satOf, rgbToHsv]
  have hinit : initialMask grayRaster permissiveParams 0 0 = true := by
    rw [initialMask_eq_true_iff]
    refine ⟨by decide, by decide, by decide, ?_, ?_, ?_⟩ <;>
      norm_num [grayRaster, permissiveParams, valOf, satOf, rgbToHsv,
        calculateLocalMeanSaturation, clippedRange, List.range']
  have hnear := @isNear_center (blackPixelsMask grayRaster permissiveParams)
    grayRaster.width grayRaster.height 0 0
    permissiveParams.structuringElementSize
    (show 0 < grayRaster.width from by decide)
    (show 0 < grayRaster.height from by decide) hblack
  have hfin := black_imp_final_false hblack
  have hm := @merged_false_of_final_false grayRaster permissiveParams none 0 0
    (show 0 < grayRaster.width from by decide)
    (show 0 < grayRaster.height from by decide) hfin
  have hvis : (visualizationImage grayRaster permissiveParams none).px 0 0 =
      ⟨0, 0, 255, 255⟩ := by
    rw [visualizationImage_px (by decide) (by decide), hm, hinit, hnear]
    simp [grayRaster]
  exact ⟨hblack, hm, hvis, by rw [hvis]; decide⟩

/-- C7 (amended): green is written exactly on merged-mask pixels, which are
exactly the pixels forced transparent among opaque source pixels; blue
(proximity-whitelist) colouring overrides red, and red is written exactly on
black-mask pixels not so overridden; green never collides with blue or red
because the merged mask is disjoint from both, so no pixel is coloured by
two rules. -/
theorem color_coding (img : Raster) (P : ProcessingParams)
    (wl : Option (Nat → Nat → Bool)) (x y : Nat)
    (hx : x < img.width) (hy : y < img.height) :
    (mergedMask img P wl x y = true →
      (visualizationImage img P wl).px x y = ⟨0, 255, 0, (img.px x y).a⟩ ∧
      (processedImage img P wl).px x y = ⟨0, 0, 0, 0⟩ ∧
      (initialMask img P x y &&
        isNearBlackPixelOptimized (blackPixelsMask img P) img.width
          img.height x y P.structuringElementSize) = false ∧
      blackPixelsMask img P x y = false) ∧
    (mergedMask img P wl x y = false →
      (initialMask img P x y &&
        isNearBlackPixelOptimized (blackPixelsMask img P) img.width
          img.height x y P.structuringElementSize) = true →
      (visualizationImage img P wl).px x y = ⟨0, 0, 255, (img.px x y).a⟩) ∧
    (mergedMask img P wl x y = false →
      (initialMask img P x y &&
        isNearBlackPixelOptimized (blackPixelsMask img P) img.width
          img.height x y P.structuringElementSize) = false →
      blackPixelsMask img P x y = true →
      (visualizationImage img P wl).px x y = ⟨255, 0, 0, (img.px x y).a⟩) ∧
    (mergedMask img P wl x y = false →
      (initialMask img P x y &&
        isNearBlackPixelOptimized (blackPixelsMask img P) img.width
          img.height x y P.structuringElementSize) = false →
      blackPixelsMask img P x y = false →
      (visualizationImage img P wl).px x y = img.px x y) ∧
    (((processedImage img P wl).px x y).a = 0 ↔
      (mergedMask img P wl x y = true ∨ (img.px x y).a = 0)) := by
  refine ⟨fun hm => ?_, fun hm hblue => ?_, fun hm hblue hb => ?_,
    fun hm hblue hb => ?_, ?_⟩
  · have hfin := opened_imp_final hx hy (merged_imp_opened hm)
    obtain ⟨hinit, hnear⟩ := finalMask_eq_true_iff.mp hfin
    have hblackf : blackPixelsMask img P x y = false := by
      cases hb : blackPixelsMask img P x y with
      | false => rfl
      | true =>
        rw [black_imp_final_false hb] at hfin
        exact absurd hfin (by simp)
    refine ⟨?_, ?_, ?_, hblackf⟩
    · rw [visualizationImage_px hx hy, hm]
      simp
    · rw [processedImage_px hx hy, hm]
      simp
    · rw [hinit, hnear]
      rfl
  · rw [visualizationImage_px hx hy, hm, hblue]
    simp
  · rw [visualizationImage_px hx hy, hm, hblue, hb]
    simp
  · rw [visualizationImage_px hx hy, hm, hblue, hb]
    simp
  · rw [processedImage_px hx hy]
    cases hm : mergedMask img P wl x y with
    | false => simp
    | true => simp

/-- Witness for the amended C7 at the gray raster with permissive
parameters. -/
theorem color_coding_witness :
    ((0 : Nat) < 1) ∧
    ((mergedMask grayRaster permissiveParams none 0 0 = true →
      (visualizationImage grayRaster permissiveParams none).px 0 0 =
        ⟨0, 255, 0, (grayRaster.px 0 0).a⟩ ∧
      (processedImage grayRaster permissiveParams none).px 0 0 =
        ⟨0, 0, 0, 0⟩ ∧
      (initialMask grayRaster permissiveParams 0 0 &&
        isNearBlackPixelOptimized (blackPixelsMask grayRaster
          permissiveParams) grayRaster.width grayRaster.height 0 0
          permissiveParams.structuringElementSize) = false ∧
      blackPixelsMask grayRaster permissiveParams 0 0 = false) ∧
    (mergedMask grayRaster permissiveParams none 0 0 = false →
      (initialMask grayRaster permissiveParams 0 0 &&
        isNearBlackPixelOptimized (blackPixelsMask grayRaster
          permissiveParams) grayRaster.width grayRaster.height 0 0
          permissiveParams.structuringElementSize) = true →
      (visualizationImage grayRaster permissiveParams none).px 0 0 =
        ⟨0, 0, 255, (grayRaster.px 0 0).a⟩) ∧
    (mergedMask grayRaster permissiveParams none 0 0 = false →
      (initialMask grayRaster permissiveParams 0 0 &&
        isNearBlackPixelOptimized (blackPixelsMask grayRaster
          permissiveParams) grayRaster.width grayRaster.height 0 0
          permissiveParams.structuringElementSize) = false →
      blackPixelsMask grayRaster permissiveParams 0 0 = true →
      (visualizationImage grayRaster permissiveParams none).px 0 0 =
        ⟨255, 0, 0, (grayRaster.px 0 0).a⟩) ∧
    (mergedMask grayRaster permissiveParams none 0 0 = false →
      (initialMask grayRaster permissiveParams 0 0 &&
        isNearBlackPixelOptimized (blackPixelsMask grayRaster
          permissiveParams) grayRaster.width grayRaster.height 0 0
          permissiveParams.structuringElementSize) = false →
      blackPixelsMask grayRaster permissiveParams 0 0 = false →
      (visualizationImage grayRaster permissiveParams none).px 0 0 =
        grayRaster.px 0 0) ∧
    (((processedImage grayRaster permissiveParams none).px 0 0).a = 0 ↔
      (mergedMask grayRaster permissiveParams none 0 0 = true ∨
        (grayRaster.px 0 0).a = 0))) :=
  ⟨by norm_num,
    color_coding grayRaster permissiveParams none 0 0 (by decide) (by decide)⟩

/-- C9: degenerate input totality — on a zero-size raster or a fully
transparent raster, processing yields both outputs equal to the source
raster and all seven pixel-count statistics zero. -/
theorem degenerate_input (img : Raster) (P : ProcessingParams)
    (wl : Option (Nat → Nat → Bool))
    (hdeg : img.width = 0 ∨ img.height = 0 ∨
      ∀ x, x < img.width → ∀ y, y < img.height → (img.px x y).a = 0) :
    processedImage img P wl = img ∧
    visualizationImage img P wl = img ∧
    (processStats img P wl).brightPixels = 0 ∧
    (processStats img P wl).lowSaturationPixels = 0 ∧
    (processStats img P wl).candidateArtifacts = 0 ∧
    (processStats img P wl).lowSaturationAreas = 0 ∧
    (processStats img P wl).nearBlackPixels = 0 ∧
    (processStats img P wl).replacedPixels = 0 ∧
    (processStats img P wl).blackPixels = 0 := by
  have ha : ∀ x, x < img.width → ∀ y, y < img.height →
      (img.px x y).a = 0 := by
    rcases hdeg with h | h | h
    · intro x hx
      omega
    · intro x hx y hy
      omega
    · exact h
  have hib : ∀ x y, initialMask img P x y = false := by
    intro x y
    cases h : initialMask img P x y with
    | false => rfl
    | true =>
      have c := initialMask_eq_true_iff.mp h
      exact absurd (ha x c.1 y c.2.1) c.2.2.1
  have hbl : ∀ x y, blackPixelsMask img P x y = false := by
    intro x y
    cases h : blackPixelsMask img P x y with
    | false => rfl
    | true =>
      have c := blackPixelsMask_eq_true_iff.mp h
      exact absurd (ha x c.1 y c.2.1) c.2.2.1
  have hfin : ∀ x y, finalMask img P x y = false := by
    intro x y
    simp [finalMask, hib]
  have hm : ∀ x y, x < img.width → y < img.height →
      mergedMask img P wl x y = false :=
    fun x y hx hy => merged_false_of_final_false hx hy (hfin x y)
  refine ⟨?_, ?_, ?_, ?_, ?_, ?_, ?_, ?_, ?_⟩
  · refine raster_ext rfl rfl fun x y => ?_
    by_cases hb : x < img.width ∧ y < img.height
    · rw [processedImage_px hb.1 hb.2, hm x y hb.1 hb.2]
      simp
    · exact processedImage_px_oob hb
  · refine raster_ext rfl rfl fun x y => ?_
    by_cases hb : x < img.width ∧ y < img.height
    · rw [visualizationImage_px hb.1 hb.2, hm x y hb.1 hb.2, hib x y,
        hbl x y]
      simp
    · exact visualizationImage_px_oob hb
  · simp only [processStats]
    apply countP_eq_zero
    intro x hx y hy
    simp [ha x hx y hy]
  · simp only [processStats]
    apply countP_eq_zero
    intro x hx y hy
    simp [ha x hx y hy]
  · simp only [processStats]
    apply countP_eq_zero
    intro x hx y hy
    simp [ha x hx y hy]
  · simp only [processStats]
    apply countP_eq_zero
    intro x hx y hy
    simp [ha x hx y hy]
  · simp only [processStats]
    apply countP_eq_zero
    intro x hx y hy
    simp [hib x y]
  · simp only [processStats]
    apply countP_eq_zero
    intro x hx y hy
    simp [hib x y]
  · simp only [processStats]
    apply countP_eq_zero
    intro x hx y hy
    simp [ha x hx y hy]

/-- Witness for C9 at the 0×0 raster. -/
theorem degenerate_input_witness :
    (emptyRaster.width = 0 ∨ emptyRaster.height = 0 ∨
      ∀ x, x < emptyRaster.width → ∀ y, y < emptyRaster.height →
        (emptyRaster.px x y).a = 0) ∧
    (processedImage emptyRaster defaultParams none = emptyRaster ∧
     visualizationImage emptyRaster defaultParams none = emptyRaster ∧
     (processStats emptyRaster defaultParams none).brightPixels = 0 ∧
     (processStats emptyRaster defaultParams none).lowSaturationPixels = 0 ∧
     (processStats emptyRaster defaultParams none).candidateArtifacts = 0 ∧
     (processStats emptyRaster defaultParams none).lowSaturationAreas = 0 ∧
     (processStats emptyRaster defaultParams none).nearBlackPixels = 0 ∧
     (processStats emptyRaster defaultParams none).replacedPixels = 0 ∧
     (processStats emptyRaster defaultParams none).blackPixels = 0) :=
  ⟨Or.inl rfl,
    degenerate_input emptyRaster defaultParams none (Or.inl rfl)⟩

end ImgClean
